import Mathlib

/-!
Verification development for the Excel-Evaluator repository: a shallow
embedding of the two assessment session controllers
(`src/components/ExcelAssessment.tsx`, the question session, and
`src/components/InteractiveExcelAssessment.tsx`, the spreadsheet task
session) and of their shared Evaluator adapter, together with theorems
settling the specification claims about them.

Conventions of the embedding:
* JavaScript strings are Lean `String`s; machine time is an abstract `Nat`
  clock measured in seconds; every UI/event-loop event carries the time at
  which it fires.
* The external HTTP service is an oracle: each in-flight request is resolved
  by an event that carries the outcome (`FetchOutcome`).
* `JSON.parse` is modelled by `jsParse`, a parser for the JSON fragment the
  evaluation rubric requests (objects, arrays, strings without escape
  sequences, integer numbers, `true`/`false`/`null`).  Floating point
  numerals and string escapes are outside the model.
-/

/-- The backtick character, written by code point to keep it out of the
surrounding text. -/
def backtickChar : Char := Char.ofNat 96

/-- The double-quote character. -/
def quoteChar : Char := Char.ofNat 34

/-- The opening-brace character. -/
def openBraceChar : Char := Char.ofNat 123

/-- The closing-brace character. -/
def closeBraceChar : Char := Char.ofNat 125

/-- The backslash character. -/
def backslashChar : Char := Char.ofNat 92

/-- JSON values, as produced by the model of `JSON.parse`. -/
inductive JsVal where
  | jnull
  | jbool (b : Bool)
  | jnum (n : Int)
  | jstr (s : String)
  | jarr (elems : List JsVal)
  | jobj (fields : List (String × JsVal))

/-- JSON insignificant whitespace (space, tab, line feed, carriage return). -/
def isJsonWs (c : Char) : Bool :=
  c = ' ' || c = '\t' || c = '\n' || c = '\r'

/-- Drop leading JSON whitespace. -/
def skipJsonWs : List Char → List Char
  | [] => []
  | c :: rest => if isJsonWs c then skipJsonWs rest else c :: rest

/-- Parse the body of a JSON string after the opening quote: plain characters
up to the closing quote.  Escape sequences (backslash) and raw control
characters are rejected, as `JSON.parse` rejects the latter and the model
does not cover the former. -/
def parseStrBody : List Char → Option (List Char × List Char)
  | [] => none
  | c :: rest =>
    if c = quoteChar then some ([], rest)
    else if c = backslashChar || c.toNat < 32 then none
    else
      match parseStrBody rest with
      | some (s, r) => some (c :: s, r)
      | none => none

/-- Split a maximal run of decimal digits off the front of the input. -/
def parseDigits : List Char → List Char × List Char
  | [] => ([], [])
  | c :: rest =>
    if c.isDigit then
      let (ds, r) := parseDigits rest
      (c :: ds, r)
    else ([], c :: rest)

/-- Numeric value of a digit run. -/
def digitsToNat (ds : List Char) : Nat :=
  ds.foldl (fun acc c => acc * 10 + (c.toNat - 48)) 0

/-- Parse an unsigned JSON integer: at least one digit, no leading zeros,
and not followed by a fraction or exponent (floats are outside the model,
so they are rejected rather than mis-read). -/
def parseIntCore (l : List Char) : Option (Nat × List Char) :=
  let (ds, r) := parseDigits l
  if ds.isEmpty then none
  else if ds.head? = some '0' && 1 < ds.length then none
  else
    match r with
    | [] => some (digitsToNat ds, [])
    | c :: _ =>
      if c = '.' || c = 'e' || c = 'E' then none
      else some (digitsToNat ds, r)

/-- Parse a JSON number (integer subset), with optional leading minus. -/
def parseNum : List Char → Option (Int × List Char)
  | [] => none
  | c :: rest =>
    if c = '-' then
      match parseIntCore rest with
      | some (n, r) => some (-(n : Int), r)
      | none => none
    else
      match parseIntCore (c :: rest) with
      | some (n, r) => some ((n : Int), r)
      | none => none

/-- Require the literal `pat` at the head of the input. -/
def expectLit (pat : List Char) (l : List Char) : Option (List Char) :=
  if l.take pat.length = pat then some (l.drop pat.length) else none

mutual

/-- Fuelled recursive-descent parser for one JSON value (see `jsParse`). -/
def parseVal : Nat → List Char → Option (JsVal × List Char)
  | 0, _ => none
  | fuel + 1, l =>
    match skipJsonWs l with
    | [] => none
    | c :: rest =>
      if c = quoteChar then
        match parseStrBody rest with
        | some (s, r) => some (JsVal.jstr (String.mk s), r)
        | none => none
      else if c = openBraceChar then
        match skipJsonWs rest with
        | [] => none
        | c2 :: rest2 =>
          if c2 = closeBraceChar then some (JsVal.jobj [], rest2)
          else parseMembers fuel (c2 :: rest2)
      else if c = '[' then
        match skipJsonWs rest with
        | [] => none
        | c2 :: rest2 =>
          if c2 = ']' then some (JsVal.jarr [], rest2)
          else parseElems fuel (c2 :: rest2)
      else if c = 't' then
        match expectLit ("rue").data rest with
        | some r => some (JsVal.jbool true, r)
        | none => none
      else if c = 'f' then
        match expectLit ("alse").data rest with
        | some r => some (JsVal.jbool false, r)
        | none => none
      else if c = 'n' then
        match expectLit ("ull").data rest with
        | some r => some (JsVal.jnull, r)
        | none => none
      else if c = '-' || c.isDigit then
        match parseNum (c :: rest) with
        | some (n, r) => some (JsVal.jnum n, r)
        | none => none
      else none

/-- Parse the members of a JSON object, positioned at the first key. -/
def parseMembers : Nat → List Char → Option (JsVal × List Char)
  | 0, _ => none
  | fuel + 1, l =>
    match l with
    | [] => none
    | c :: rest =>
      if c = quoteChar then
        match parseStrBody rest with
        | some (k, r1) =>
          (match skipJsonWs r1 with
           | c2 :: r2 =>
             if c2 = ':' then
               match parseVal fuel r2 with
               | some (v, r3) =>
                 (match skipJsonWs r3 with
                  | c3 :: r4 =>
                    if c3 = ',' then
                      match parseMembers fuel (skipJsonWs r4) with
                      | some (JsVal.jobj fields, r5) =>
                        some (JsVal.jobj ((String.mk k, v) :: fields), r5)
                      | _ => none
                    else if c3 = closeBraceChar then
                      some (JsVal.jobj [(String.mk k, v)], r4)
                    else none
                  | [] => none)
               | none => none
             else none
           | [] => none)
        | none => none
      else none

/-- Parse the elements of a JSON array, positioned at the first element. -/
def parseElems : Nat → List Char → Option (JsVal × List Char)
  | 0, _ => none
  | fuel + 1, l =>
    match parseVal fuel l with
    | some (v, r1) =>
      (match skipJsonWs r1 with
       | c :: r2 =>
         if c = ',' then
           match parseElems fuel r2 with
           | some (JsVal.jarr elems, r3) => some (JsVal.jarr (v :: elems), r3)
           | _ => none
         else if c = ']' then some (JsVal.jarr [v], r2)
         else none
       | [] => none)
    | none => none

end

/-- Model of `JSON.parse` on the integer-valued JSON fragment: parse one
value and require only whitespace to remain. -/
def jsParse (s : String) : Option JsVal :=
  match parseVal (s.data.length + 1) s.data with
  | some (v, rest) => if skipJsonWs rest = [] then some v else none
  | none => none

/-- Property access `parsed.key` on a parse result: defined only on objects,
taking the last binding for duplicate keys as JavaScript object literals do. -/
def getField (v : JsVal) (key : String) : Option JsVal :=
  match v with
  | JsVal.jobj fields => List.lookup key fields.reverse
  | _ => none

/-- Models `parsed.score || 0`: the parsed `score` field when it is a
nonzero number, `0` when it is absent, `null`, `false`, or numerically `0`.
(Fields of other runtime types are outside the model; the rubric requests an
integer.) -/
def jsOrScore (v : JsVal) : Int :=
  match getField v ("score") with
  | some (JsVal.jnum n) => if n = 0 then 0 else n
  | _ => 0

/-- Models `parsed.justification || dflt`: the parsed `justification` field
when it is a non-empty string, the default otherwise. -/
def jsOrJust (v : JsVal) (dflt : String) : String :=
  match getField v ("justification") with
  | some (JsVal.jstr s) => if s = "" then dflt else s
  | _ => dflt

/-- One scan step of the global regex replace
`aiResponse.replace(/\x60\x60\x60json\n?|\n?\x60\x60\x60/g, '')` used by the
task-session adapter: at each position, first try to consume a
backtick-backtick-backtick-`json` fence opener with an optional trailing
newline, then an optional newline followed by a three-backtick fence closer;
otherwise keep the character. -/
def stripFencesGo : Nat → List Char → List Char
  | 0, l => l
  | fuel + 1, l =>
    if l.take 7 = ("```json").data then
      if (l.drop 7).take 1 = ['\n'] then stripFencesGo fuel (l.drop 8)
      else stripFencesGo fuel (l.drop 7)
    else if l.take 4 = ("\n```").data then
      stripFencesGo fuel (l.drop 4)
    else if l.take 3 = ("```").data then
      stripFencesGo fuel (l.drop 3)
    else
      match l with
      | [] => []
      | c :: rest => c :: stripFencesGo fuel rest

/-- The fenced-code-block stripping the task-session adapter applies to the
service's inner text before `JSON.parse`.  The fuel argument of
`stripFencesGo` only bounds the recursion; each step consumes at least one
character, so the input's length is always enough fuel. -/
def stripCodeFences (s : String) : String :=
  String.mk (stripFencesGo s.data.length s.data)

/-- Outcome of one Evaluator HTTP round trip, as observed by the adapter:
the `fetch` promise rejects; the response arrives with a non-success status
(`!response.ok`, thrown and caught in the same handler); the response body
parses but lacks the `candidates[0].content.parts[0].text` path (the access
throws); or that path yields the inner text `t`. -/
inductive FetchOutcome where
  | networkError
  | httpNotOk
  | badEnvelope
  | envelopeText (t : String)
deriving DecidableEq

/-- The `{score, justification}` result produced by either adapter. -/
structure EvalResult where
  score : Int
  justification : String
deriving DecidableEq

/-- `evaluateAnswer` of the question session (ExcelAssessment.tsx): the
credential guard, the transport/envelope failure fallback, and the parse of
the raw inner text (no fence stripping) with its own fallback. -/
def evaluateAnswer (apiKey : String) (resp : FetchOutcome) : EvalResult :=
  if apiKey = "" then
    { score := 0, justification := "API key required for evaluation" }
  else
    match resp with
    | FetchOutcome.networkError =>
      { score := 0, justification := "Error occurred during evaluation" }
    | FetchOutcome.httpNotOk =>
      { score := 0, justification := "Error occurred during evaluation" }
    | FetchOutcome.badEnvelope =>
      { score := 0, justification := "Error occurred during evaluation" }
    | FetchOutcome.envelopeText t =>
      match jsParse t with
      | some parsed =>
        { score := jsOrScore parsed
          justification := jsOrJust parsed ("Unable to evaluate answer") }
      | none =>
        { score := 5
          justification := "Answer received but could not be properly evaluated" }

/-- One spreadsheet task of the task session, as in `EXCEL_TASKS`. -/
structure ExcelTask where
  id : Nat
  title : String
  description : String
  expectedResult : String
  difficulty : String
  timeLimit : Nat
deriving DecidableEq

/-- The five predefined tasks of InteractiveExcelAssessment.tsx. -/
def EXCEL_TASKS : List ExcelTask :=
  [ { id := 1
      title := "Basic VLOOKUP"
      description := "In cell F2, create a VLOOKUP formula to find the price of the product ID entered in cell E2."
      expectedResult := "=VLOOKUP(E2,A:B,2,FALSE)"
      difficulty := "Easy"
      timeLimit := 180 },
    { id := 2
      title := "Data Validation & Formatting"
      description := "Apply currency formatting to column B (Price) and create a data validation dropdown in E2 with the product IDs from column A."
      expectedResult := "formatted_currency"
      difficulty := "Medium"
      timeLimit := 300 },
    { id := 3
      title := "INDEX MATCH Alternative"
      description := "In cell F3, create an INDEX/MATCH formula that does the same lookup as the VLOOKUP in F2, but can search in any direction."
      expectedResult := "=INDEX(B:B,MATCH(E2,A:A,0))"
      difficulty := "Medium"
      timeLimit := 240 },
    { id := 4
      title := "Error Handling"
      description := "Modify your VLOOKUP formula in F2 to display \x27Product Not Found\x27 instead of #N/A when the lookup fails."
      expectedResult := "=IFERROR(VLOOKUP(E2,A:B,2,FALSE),\"Product Not Found\")"
      difficulty := "Hard"
      timeLimit := 300 },
    { id := 5
      title := "Advanced Analysis"
      description := "Create a summary in cells H1:I3 showing: Total Products, Average Price, and Most Expensive Product Name."
      expectedResult := "multiple_formulas"
      difficulty := "Hard"
      timeLimit := 420 } ]

/-- `evaluateTask` of the task session (InteractiveExcelAssessment.tsx): the
credential guard, the task lookup by id, the failure fallbacks, and the
parse of the fence-stripped inner text.  The actions and grid state that the
source serializes into the outgoing prompt only feed the external service,
whose behaviour is the `FetchOutcome` oracle, so the prompt text is not
reconstructed here. -/
def evaluateTask (apiKey : String) (taskId : Nat) (resp : FetchOutcome) : EvalResult :=
  if apiKey = "" then
    { score := 0, justification := "API key required for evaluation" }
  else
    match EXCEL_TASKS.find? (fun t => t.id == taskId) with
    | none => { score := 0, justification := "Task not found" }
    | some _ =>
      match resp with
      | FetchOutcome.networkError =>
        { score := 0, justification := "Error occurred during evaluation" }
      | FetchOutcome.httpNotOk =>
        { score := 0, justification := "Error occurred during evaluation" }
      | FetchOutcome.badEnvelope =>
        { score := 0, justification := "Error occurred during evaluation" }
      | FetchOutcome.envelopeText t =>
        match jsParse (stripCodeFences t) with
        | some parsed =>
          { score := jsOrScore parsed
            justification := jsOrJust parsed ("Unable to evaluate task") }
        | none =>
          { score := 5
            justification := "Task received but could not be properly evaluated" }

/-- The five predefined open-ended questions of ExcelAssessment.tsx. -/
def EXCEL_QUESTIONS : List String :=
  [ "In your own words, what is the primary purpose of VLOOKUP in Excel?",
    "You have a dataset where column A contains Product IDs and column B contains Product Names. On another sheet, you have a Product ID in cell C2. Write the VLOOKUP formula to find the corresponding Product Name.",
    "What is the difference between VLOOKUP\x27s TRUE and FALSE arguments for the [range_lookup] parameter? When would you use TRUE?",
    "VLOOKUP returns an #N/A error. List three common reasons why this might be happening.",
    "What are the main advantages of using INDEX and MATCH together over VLOOKUP?" ]

/-- The seeded sample grid of InteractiveExcelAssessment.tsx. -/
def SAMPLE_DATA : List (List String) :=
  [ ["Product ID", "Product Name", "Price", "Category"],
    ["P001", "Laptop Pro", "1299.99", "Electronics"],
    ["P002", "Wireless Mouse", "29.99", "Electronics"],
    ["P003", "Office Chair", "249.50", "Furniture"],
    ["P004", "Desk Lamp", "89.99", "Furniture"],
    ["P005", "Notebook Set", "15.99", "Stationery"],
    ["P006", "Pen Collection", "24.99", "Stationery"],
    ["P007", "Monitor 4K", "599.99", "Electronics"],
    ["P008", "Keyboard Pro", "149.99", "Electronics"] ]

/-- Kind of an integrity flag ('paste' | 'tab_switch'). -/
inductive FlagKind where
  | paste
  | tab_switch
deriving DecidableEq

/-- A `CheatingFlag` record.  Timestamps are abstract seconds. -/
structure CheatingFlag where
  type : FlagKind
  timestamp : Nat
deriving DecidableEq

/-- The stage of the question session
(`'welcome' | 'interview' | 'report'`). -/
inductive QStage where
  | welcome
  | interview
  | report
deriving DecidableEq

/-- An `Answer` record of the question session. -/
structure Answer where
  question : String
  answer : String
  score : Int
  justification : String
deriving DecidableEq

/-- One in-flight `handleSubmitAnswer` evaluation of the question session:
the values the handler closed over before its `await` — the question index
and the submitted answer text. -/
structure QPending where
  qIndex : Nat
  answerText : String
deriving DecidableEq

/-- The reactive state of ExcelAssessment.tsx, plus the list of in-flight
evaluations (the suspended continuations of `handleSubmitAnswer`). -/
structure QState where
  interviewStage : QStage
  currentQuestionIndex : Nat
  answers : List Answer
  cheatingFlags : List CheatingFlag
  isLoading : Bool
  currentAnswer : String
  startTime : Option Nat
  apiKey : String
  showApiKeyInput : Bool
  pendingEvals : List QPending
deriving DecidableEq

/-- The initial question-session state (the `useState` initializers). -/
def initQ : QState :=
  { interviewStage := QStage.welcome
    currentQuestionIndex := 0
    answers := []
    cheatingFlags := []
    isLoading := false
    currentAnswer := ""
    startTime := none
    apiKey := ""
    showApiKeyInput := false
    pendingEvals := [] }

/-- UI / event-loop events of the question session.  `resolveEval i resp`
resolves the `i`-th in-flight evaluation with outcome `resp` (in-flight
requests may resolve in any order). -/
inductive QEvent where
  | typeApiKey (v : String)
  | startClick
  | typeAnswer (v : String)
  | submitClick
  | resolveEval (i : Nat) (resp : FetchOutcome)
  | pasteEvent
  | visibilityHidden
deriving DecidableEq

/-- JavaScript `String.prototype.trim` whitespace (the ASCII whitespace
characters together with the common Unicode space characters the claims can
reach; exotic Unicode spaces behave the same way and are omitted). -/
def isJsWhitespace (c : Char) : Bool :=
  c = ' ' || c = '\t' || c = '\n' || c = '\r' ||
  c = Char.ofNat 11 || c = Char.ofNat 12 || c = Char.ofNat 160 ||
  c = Char.ofNat 8232 || c = Char.ofNat 8233 || c = Char.ofNat 65279

/-- Model of `s.trim()`: drop JS whitespace from both ends. -/
def jsTrim (s : String) : String :=
  String.mk (((s.data.dropWhile isJsWhitespace).reverse.dropWhile isJsWhitespace).reverse)

/-- The synchronous prefix of `handleSubmitAnswer` (ExcelAssessment.tsx):
bail out if the trimmed answer is empty, otherwise set the loading guard and
issue the evaluation, capturing the current question index and answer. -/
def beginSubmitAnswer (s : QState) : QState :=
  if jsTrim s.currentAnswer = "" then s
  else
    { s with
      isLoading := true
      pendingEvals :=
        s.pendingEvals ++ [({ qIndex := s.currentQuestionIndex, answerText := s.currentAnswer } : QPending)] }

/-- The continuation of `handleSubmitAnswer` after its awaited evaluation
resolves: append the `Answer` record, clear the draft answer, advance the
question index or transition to the report stage (using the index captured
before the `await`), and clear the loading guard. -/
def finishSubmitAnswer (p : QPending) (resp : FetchOutcome) (s : QState) : QState :=
  let res := evaluateAnswer s.apiKey resp
  let base :=
    { s with
      answers :=
        s.answers ++
          [({ question := EXCEL_QUESTIONS.getD p.qIndex ("")
              answer := p.answerText
              score := res.score
              justification := res.justification } : Answer)]
      currentAnswer := ""
      isLoading := false }
  if p.qIndex < EXCEL_QUESTIONS.length - 1 then
    { base with currentQuestionIndex := s.currentQuestionIndex + 1 }
  else
    { base with interviewStage := QStage.report }

/-- One step of the question session at time `t`.  Events on surfaces that
the current stage does not render (or renders disabled) are no-ops: the
answer textarea and submit button exist only on the interview screen and are
disabled while `isLoading`; the API-key textarea exists only on the welcome
screen once `showApiKeyInput` is set; the visibility listener is global but
guards on the stage itself. -/
def stepQ (t : Nat) (e : QEvent) (s : QState) : QState :=
  match e with
  | QEvent.typeApiKey v =>
    if s.interviewStage = QStage.welcome ∧ s.showApiKeyInput then
      { s with apiKey := v }
    else s
  | QEvent.startClick =>
    if s.interviewStage = QStage.welcome ∧ ¬(s.showApiKeyInput ∧ s.apiKey = "") then
      if s.apiKey = "" then { s with showApiKeyInput := true }
      else { s with startTime := some t, interviewStage := QStage.interview }
    else s
  | QEvent.typeAnswer v =>
    if s.interviewStage = QStage.interview ∧ s.isLoading = false then
      { s with currentAnswer := v }
    else s
  | QEvent.submitClick =>
    if s.interviewStage = QStage.interview ∧ s.isLoading = false then
      beginSubmitAnswer s
    else s
  | QEvent.resolveEval i resp =>
    match s.pendingEvals.get? i with
    | some p => finishSubmitAnswer p resp { s with pendingEvals := s.pendingEvals.eraseIdx i }
    | none => s
  | QEvent.pasteEvent =>
    if s.interviewStage = QStage.interview ∧ s.isLoading = false then
      { s with cheatingFlags := s.cheatingFlags ++ [({ type := FlagKind.paste, timestamp := t } : CheatingFlag)] }
    else s
  | QEvent.visibilityHidden =>
    if s.interviewStage = QStage.interview then
      { s with cheatingFlags := s.cheatingFlags ++ [({ type := FlagKind.tab_switch, timestamp := t } : CheatingFlag)] }
    else s

/-- Run the question session from `initQ` over a timed event trace. -/
def runQ (tr : List (Nat × QEvent)) : QState :=
  tr.foldl (fun s te => stepQ te.1 te.2 s) initQ

/-- The stage of the task session (`'welcome' | 'tasks' | 'report'`). -/
inductive TStage where
  | welcome
  | tasks
  | report
deriving DecidableEq

/-- Kind of a `SpreadsheetAction`
(`'cell_edit' | 'formula_entered' | 'data_changed'`). -/
inductive ActionType where
  | cell_edit
  | formula_entered
  | data_changed
deriving DecidableEq

/-- A `SpreadsheetAction` record.  Timestamps are abstract seconds. -/
structure SpreadsheetAction where
  timestamp : Nat
  type : ActionType
  cell : String
  oldValue : String
  newValue : String
deriving DecidableEq

/-- A `TaskResult` record of the task session. -/
structure TaskResult where
  taskId : Nat
  task : String
  completed : Bool
  score : Int
  justification : String
  actions : List SpreadsheetAction
  timeSpent : Nat
deriving DecidableEq

/-- One in-flight `handleTaskComplete` evaluation of the task session: the
values the handler computed before its `await` — the task index it closed
over, the filtered action log, and the elapsed time. -/
structure TPending where
  taskIndex : Nat
  capturedActions : List SpreadsheetAction
  capturedTimeSpent : Nat
deriving DecidableEq

/-- The reactive state of InteractiveExcelAssessment.tsx, plus the list of
in-flight evaluations (the suspended continuations of
`handleTaskComplete`).  The grid (`spreadsheetData`, a sparse JS array
seeded from `SAMPLE_DATA`) is represented by its list of cell overwrites,
newest first. -/
structure TState where
  assessmentStage : TStage
  currentTaskIndex : Nat
  taskResults : List TaskResult
  spreadsheetActions : List SpreadsheetAction
  cheatingFlags : List CheatingFlag
  taskStartTime : Option Nat
  timeRemaining : Nat
  isLoading : Bool
  apiKey : String
  showApiKeyInput : Bool
  gridOverwrites : List (Nat × Nat × String)
  pendingEvals : List TPending
deriving DecidableEq

/-- The initial task-session state (the `useState` initializers). -/
def initT : TState :=
  { assessmentStage := TStage.welcome
    currentTaskIndex := 0
    taskResults := []
    spreadsheetActions := []
    cheatingFlags := []
    taskStartTime := none
    timeRemaining := 0
    isLoading := false
    apiKey := ""
    showApiKeyInput := false
    gridOverwrites := []
    pendingEvals := [] }

/-- Read `spreadsheetData[r]?.[c] || ''`: the newest overwrite of the cell
if any, else the seeded sample value, else the empty string. -/
def readCell (ov : List (Nat × Nat × String)) (r c : Nat) : String :=
  match ov.find? (fun e => e.1 == r && e.2.1 == c) with
  | some e => e.2.2
  | none => ((SAMPLE_DATA.get? r).bind (fun row => row.get? c)).getD ""

/-- `String.fromCharCode(65 + colIndex) + (rowIndex + 1)`. -/
def cellName (r c : Nat) : String :=
  (Char.ofNat (65 + c)).toString ++ toString (r + 1)

/-- UI / event-loop events of the task session.  `resolveEval i resp`
resolves the `i`-th in-flight evaluation with outcome `resp`. -/
inductive TEvent where
  | typeApiKey (v : String)
  | startClick
  | completeClick
  | timerTick
  | cellEdit (r c : Nat) (v : String)
  | resolveEval (i : Nat) (resp : FetchOutcome)
  | pasteEvent
  | visibilityHidden
deriving DecidableEq

/-- The synchronous prefix of `handleTaskComplete`
(InteractiveExcelAssessment.tsx): bail out if no task start time is set;
otherwise set the loading guard, capture the current task, the action log
filtered to timestamps at or after the task start, and the elapsed time, and
issue the evaluation.  When `currentTaskIndex` is out of range (reachable
only through re-entry) `EXCEL_TASKS[currentTaskIndex]` is `undefined` and
the handler throws on `currentTask.id` after having set the loading guard,
issuing no evaluation.  There is no `isLoading` check in the handler
itself. -/
def beginTaskComplete (t : Nat) (s : TState) : TState :=
  match s.taskStartTime with
  | none => s
  | some st =>
    let s1 := { s with isLoading := true }
    match EXCEL_TASKS.get? s.currentTaskIndex with
    | none => s1
    | some _ =>
      let taskActions := s.spreadsheetActions.filter (fun a => st ≤ a.timestamp)
      { s1 with
        pendingEvals :=
          s1.pendingEvals ++
            [({ taskIndex := s.currentTaskIndex
                capturedActions := taskActions
                capturedTimeSpent := t - st } : TPending)] }

/-- The continuation of `handleTaskComplete` after its awaited evaluation
resolves: append the `TaskResult` (completed iff the score is at least 6),
then — using the task index captured before the `await` — either advance
`currentTaskIndex` (a functional update of the live value) and restart the
timer for the captured index's successor (`startNextTask`), or transition to
the report stage, and clear the loading guard. -/
def finishTaskComplete (t : Nat) (p : TPending) (resp : FetchOutcome) (s : TState) : TState :=
  match EXCEL_TASKS.get? p.taskIndex with
  | none => s
  | some task =>
    let ev := evaluateTask s.apiKey task.id resp
    let base :=
      { s with
        taskResults :=
          s.taskResults ++
            [({ taskId := task.id
                task := task.description
                completed := decide (6 ≤ ev.score)
                score := ev.score
                justification := ev.justification
                actions := p.capturedActions
                timeSpent := p.capturedTimeSpent } : TaskResult)]
        isLoading := false }
    if p.taskIndex < EXCEL_TASKS.length - 1 then
      let base2 := { base with currentTaskIndex := s.currentTaskIndex + 1 }
      match EXCEL_TASKS.get? (p.taskIndex + 1) with
      | some nt => { base2 with taskStartTime := some t, timeRemaining := nt.timeLimit }
      | none => base2
    else
      { base with assessmentStage := TStage.report }

/-- One step of the task session at time `t`.  As in `stepQ`, events on
surfaces the current stage does not render are no-ops; the complete-task
button is disabled while `isLoading`, but the grid inputs and the timer are
not.  The timer effect decrements `timeRemaining` each second while the
stage shows tasks and time remains, and on reaching zero invokes
`handleTaskComplete` — with no loading guard. -/
def stepT (t : Nat) (e : TEvent) (s : TState) : TState :=
  match e with
  | TEvent.typeApiKey v =>
    if s.assessmentStage = TStage.welcome ∧ s.showApiKeyInput then
      { s with apiKey := v }
    else s
  | TEvent.startClick =>
    if s.assessmentStage = TStage.welcome ∧ ¬(s.showApiKeyInput ∧ s.apiKey = "") then
      if s.apiKey = "" then { s with showApiKeyInput := true }
      else
        { s with
          assessmentStage := TStage.tasks
          taskStartTime := some t
          timeRemaining := ((EXCEL_TASKS.get? 0).map (fun tk => tk.timeLimit)).getD 0 }
    else s
  | TEvent.completeClick =>
    if s.assessmentStage = TStage.tasks ∧ s.isLoading = false then
      beginTaskComplete t s
    else s
  | TEvent.timerTick =>
    if s.assessmentStage = TStage.tasks ∧ 0 < s.timeRemaining then
      if s.timeRemaining ≤ 1 then { beginTaskComplete t s with timeRemaining := 0 }
      else { s with timeRemaining := s.timeRemaining - 1 }
    else s
  | TEvent.cellEdit r c v =>
    if s.assessmentStage = TStage.tasks then
      { s with
        spreadsheetActions :=
          s.spreadsheetActions ++
            [({ timestamp := t
                type := if v.startsWith ("=") then ActionType.formula_entered else ActionType.cell_edit
                cell := cellName r c
                oldValue := readCell s.gridOverwrites r c
                newValue := v } : SpreadsheetAction)]
        gridOverwrites := (r, c, v) :: s.gridOverwrites }
    else s
  | TEvent.resolveEval i resp =>
    match s.pendingEvals.get? i with
    | some p => finishTaskComplete t p resp { s with pendingEvals := s.pendingEvals.eraseIdx i }
    | none => s
  | TEvent.pasteEvent =>
    if s.assessmentStage = TStage.tasks then
      { s with cheatingFlags := s.cheatingFlags ++ [({ type := FlagKind.paste, timestamp := t } : CheatingFlag)] }
    else s
  | TEvent.visibilityHidden =>
    if s.assessmentStage = TStage.tasks then
      { s with cheatingFlags := s.cheatingFlags ++ [({ type := FlagKind.tab_switch, timestamp := t } : CheatingFlag)] }
    else s

/-- Run the task session from `initT` over a timed event trace. -/
def runT (tr : List (Nat × TEvent)) : TState :=
  tr.foldl (fun s te => stepT te.1 te.2 s) initT

/-- JavaScript `Math.round` on the exact rational value: the nearest
integer, with halves rounding toward positive infinity. -/
def mathRound (x : ℚ) : Int := Int.floor (x + 1/2)

/-- The summed scores of the question session's answers
(`answers.reduce((sum, answer) => sum + answer.score, 0)`). -/
def sumScores (answers : List Answer) : Int :=
  answers.foldl (fun acc a => acc + a.score) 0

/-- `calculateOverallScore` of the question session: `0` for an empty
answer list, otherwise `Math.round` of the mean score.  The division is
modelled exactly over `ℚ`; for the magnitudes this program produces the
IEEE-754 division the browser performs is exact on every tie and rounds to
the same integer elsewhere. -/
def calculateOverallScore (answers : List Answer) : Int :=
  if answers.length = 0 then 0
  else mathRound ((sumScores answers : ℚ) / (answers.length : ℚ))

/-- The summed scores of the task session's results. -/
def sumTaskScores (results : List TaskResult) : Int :=
  results.foldl (fun acc r => acc + r.score) 0

/-- The `overallScore` expression of the task session's report screen:
`taskResults.length > 0 ? Math.round(sum / length) : 0`. -/
def taskOverallScore (results : List TaskResult) : Int :=
  if 0 < results.length then
    mathRound ((sumTaskScores results : ℚ) / (results.length : ℚ))
  else 0

/-- A task-session run in which the countdown expires while an explicit
submission's evaluation is still in flight: the user starts the session
(entering the API key when prompted), task 1's 180-second countdown ticks
down to one second, the user clicks the complete-task button (issuing an
evaluation and setting the loading guard), the countdown then expires
during the in-flight evaluation — re-invoking `handleTaskComplete`, which
has no loading guard — and both evaluations resolve. -/
def overlappingExpiryTrace : List (Nat × TEvent) :=
  [(0, TEvent.startClick), (1, TEvent.typeApiKey ("k")), (2, TEvent.startClick)]
    ++ List.replicate 179 (3, TEvent.timerTick)
    ++ [(200, TEvent.completeClick), (201, TEvent.timerTick),
        (202, TEvent.resolveEval 0 FetchOutcome.httpNotOk),
        (203, TEvent.resolveEval 0 FetchOutcome.httpNotOk)]

/-- The inductive invariant of the question session: records carry the
questions in their fixed order (the answer list's questions are the
corresponding take of `EXCEL_QUESTIONS`), the loading flag tracks exactly
the in-flight evaluations, at most one evaluation is ever in flight and it
is for the current item, and per stage — welcome is pristine, during the
interview the record count equals the current index which stays in range,
and at report the record count equals the number of questions with nothing
in flight. -/
def qSessionInv (s : QState) : Prop :=
  (s.answers.map (fun a => a.question) = EXCEL_QUESTIONS.take s.answers.length) ∧
  (s.isLoading = true ↔ s.pendingEvals ≠ []) ∧
  s.pendingEvals.length ≤ 1 ∧
  (∀ p ∈ s.pendingEvals, p.qIndex = s.currentQuestionIndex) ∧
  (s.interviewStage = QStage.welcome →
    s.currentQuestionIndex = 0 ∧ s.answers = [] ∧ s.pendingEvals = []) ∧
  (s.interviewStage = QStage.interview →
    s.answers.length = s.currentQuestionIndex ∧
    s.currentQuestionIndex < EXCEL_QUESTIONS.length) ∧
  (s.interviewStage = QStage.report →
    s.answers.length = EXCEL_QUESTIONS.length ∧ s.pendingEvals = [])

theorem stripFencesGo_nil (f : Nat) : stripFencesGo f [] = [] := by
  cases f with
  | zero => rfl
  | succ f' =>
    simp only [stripFencesGo]
    rw [if_neg (by decide), if_neg (by decide), if_neg (by decide)]

theorem stripFencesGo_close (s : List Char) (f : Nat) (hf : s.length + 4 ≤ f)
    (hb : ∀ c ∈ s, c ≠ backtickChar) :
    stripFencesGo f (s ++ ("\n```").data) = s := by
  induction s generalizing f with
  | nil =>
    obtain ⟨f', rfl⟩ : ∃ f', f = f' + 1 := ⟨f - 1, by omega⟩
    simp only [List.nil_append, stripFencesGo]
    rw [if_neg (by decide), if_pos (by decide)]
    have : ("\n```").data.drop 4 = [] := by decide
    rw [this, stripFencesGo_nil]
  | cons c s ih =>
    obtain ⟨f', rfl⟩ : ∃ f', f = f' + 1 := ⟨f - 1, by omega⟩
    have hc : c ≠ backtickChar := hb c (List.mem_cons_self c s)
    have hcond1 : ¬((c :: s ++ ("\n```").data).take 7 = ("```json").data) := by
      intro h
      have : c = backtickChar := by
        have h2 := congrArg List.head? h
        simpa [List.head?] using h2
      exact hc this
    have hcond3 : ¬((c :: s ++ ("\n```").data).take 3 = ("```").data) := by
      intro h
      have : c = backtickChar := by
        have h2 := congrArg List.head? h
        simpa [List.head?] using h2
      exact hc this
    have hcond2 : ¬((c :: s ++ ("\n```").data).take 4 = ("\n```").data) := by
      intro h
      have htail : (s ++ ("\n```").data).take 3 = ("```").data := by
        have h2 := congrArg List.tail h
        simpa using h2
      cases s with
      | nil => exact absurd htail (by decide)
      | cons d s' =>
        have : d = backtickChar := by
          have h2 := congrArg List.head? htail
          simpa [List.head?] using h2
        exact hb d (by simp [this]) this
    simp only [List.cons_append, stripFencesGo]
    rw [if_neg (by simpa using hcond1), if_neg (by simpa using hcond2), if_neg (by simpa using hcond3)]
    have hlen : s.length + 4 ≤ f' := by
      simp only [List.length_cons] at hf
      omega
    have := ih f' hlen (fun d hd => hb d (List.mem_cons_of_mem c hd))
    simpa using this

theorem stripFencesGo_fenceWrap (s : List Char) (f : Nat) (hf : s.length + 12 ≤ f)
    (hb : ∀ c ∈ s, c ≠ backtickChar) :
    stripFencesGo f (("```json\n").data ++ s ++ ("\n```").data) = s := by
  obtain ⟨f', rfl⟩ : ∃ f', f = f' + 1 := ⟨f - 1, by omega⟩
  have h8 : ("```json\n").data =
      backtickChar :: backtickChar :: backtickChar :: 'j' :: 's' :: 'o' :: 'n' :: '\n' :: [] := by
    decide
  simp only [stripFencesGo, h8, List.cons_append, List.nil_append]
  rw [if_pos (by simp [List.take])]
  rw [if_pos (by simp [List.drop, List.take])]
  exact stripFencesGo_close s f' (by omega) hb

theorem stripCodeFences_fenceWrap (s : String) (hb : ∀ c ∈ s.data, c ≠ backtickChar) :
    stripCodeFences ("```json\n" ++ s ++ "\n```") = s := by
  unfold stripCodeFences
  have hdata : ("```json\n" ++ s ++ "\n```").data = ("```json\n").data ++ s.data ++ ("\n```").data := by
    simp
  rw [hdata]
  have hlen : (("```json\n").data ++ s.data ++ ("\n```").data).length = s.data.length + 12 := by
    simp [List.length_append]
  rw [hlen]
  rw [stripFencesGo_fenceWrap s.data (s.data.length + 12) (by omega) hb]

theorem jsParse_fenceWrap (s : String) : jsParse ("```json\n" ++ s ++ "\n```") = none := by
  have hhead : ("```json\n" ++ s ++ "\n```").data.head? = some backtickChar := by
    have hdata : ("```json\n" ++ s ++ "\n```").data = ("```json\n").data ++ (s.data ++ ("\n```").data) := by
      simp
    rw [hdata]
    have h8 : ("```json\n").data =
        backtickChar :: backtickChar :: backtickChar :: 'j' :: 's' :: 'o' :: 'n' :: '\n' :: [] := by
      decide
    rw [h8]
    rfl
  unfold jsParse
  cases hd : ("```json\n" ++ s ++ "\n```").data with
  | nil => simp [hd] at hhead
  | cons c rest =>
    rw [hd] at hhead
    simp at hhead
    subst hhead
    simp [parseVal, skipJsonWs, isJsonWs, backtickChar, quoteChar, openBraceChar, Char.isDigit]

theorem evaluateAnswer_envelope (key t : String) (hkey : ¬key = "") :
    evaluateAnswer key (FetchOutcome.envelopeText t) =
      (match jsParse t with
       | some parsed =>
         { score := jsOrScore parsed
           justification := jsOrJust parsed ("Unable to evaluate answer") }
       | none =>
         { score := 5
           justification := "Answer received but could not be properly evaluated" }) := by
  unfold evaluateAnswer
  rw [if_neg hkey]

theorem evaluateTask_envelope (key t : String) (hkey : ¬key = "") :
    evaluateTask key 1 (FetchOutcome.envelopeText t) =
      (match jsParse (stripCodeFences t) with
       | some parsed =>
         { score := jsOrScore parsed
           justification := jsOrJust parsed ("Unable to evaluate task") }
       | none =>
         { score := 5
           justification := "Task received but could not be properly evaluated" }) := by
  unfold evaluateTask
  rw [if_neg hkey]
  rfl

/-- C5, counterexample: for the concrete Evaluator response whose inner text
is the valid result object wrapped in a fenced code block, the question
session's adapter does not strip the fence — it falls back to the degraded
score-5 result instead of returning the parsed score 7 — while the task
session's adapter does strip and parse it.  This refutes the claim that each
session variant strips the fence before parsing. -/
theorem c5_counterexample :
    evaluateAnswer ("k")
        (FetchOutcome.envelopeText ("```json\n\x7b\"score\": 7, \"justification\": \"ok\"\x7d\n```")) =
      { score := 5, justification := "Answer received but could not be properly evaluated" } ∧
    evaluateAnswer ("k")
        (FetchOutcome.envelopeText ("```json\n\x7b\"score\": 7, \"justification\": \"ok\"\x7d\n```")) ≠
      { score := 7, justification := "ok" } ∧
    evaluateTask ("k") 1
        (FetchOutcome.envelopeText ("```json\n\x7b\"score\": 7, \"justification\": \"ok\"\x7d\n```")) =
      { score := 7, justification := "ok" } := by
  refine ⟨by decide, by decide, by decide⟩

/-- C5, amended: for every Evaluator HTTP response whose inner text is a
valid `score`/`justification` JSON object wrapped in a fenced code block,
the task session's adapter strips the fence before parsing and returns the
parsed result, while the question session's adapter parses the raw fenced
text, fails, and returns the degraded score-5 fallback. -/
theorem c5_amended (key s : String) (v : JsVal) (hkey : key ≠ "")
    (hb : ∀ c ∈ s.data, c ≠ backtickChar) (hp : jsParse s = some v) :
    evaluateTask key 1 (FetchOutcome.envelopeText ("```json\n" ++ s ++ "\n```")) =
      { score := jsOrScore v, justification := jsOrJust v ("Unable to evaluate task") } ∧
    evaluateAnswer key (FetchOutcome.envelopeText ("```json\n" ++ s ++ "\n```")) =
      { score := 5, justification := "Answer received but could not be properly evaluated" } := by
  constructor
  · rw [evaluateTask_envelope key _ hkey, stripCodeFences_fenceWrap s hb, hp]
  · rw [evaluateAnswer_envelope key _ hkey, jsParse_fenceWrap s]

/-- C5, witness: the amended theorem applied at the concrete fenced
score-9 payload. -/
theorem c5_witness :
    evaluateTask ("k") 1
        (FetchOutcome.envelopeText ("```json\n" ++ "\x7b\"score\": 9, \"justification\": \"nice\"\x7d" ++ "\n```")) =
      { score := 9, justification := "nice" } ∧
    evaluateAnswer ("k")
        (FetchOutcome.envelopeText ("```json\n" ++ "\x7b\"score\": 9, \"justification\": \"nice\"\x7d" ++ "\n```")) =
      { score := 5, justification := "Answer received but could not be properly evaluated" } := by
  have h := c5_amended ("k") ("\x7b\"score\": 9, \"justification\": \"nice\"\x7d")
    (JsVal.jobj [("score", JsVal.jnum 9), ("justification", JsVal.jstr ("nice"))])
    (by decide) (by decide) (by rfl)
  refine ⟨?_, h.2⟩
  rw [h.1]
  decide

/-- C7, counterexample: with no credential configured the adapters do
return a score-0 result without consulting the response, but its
justification is the literal string "API key required for evaluation", not
"credential required" as the claim states. -/
theorem c7_counterexample :
    evaluateAnswer ("") FetchOutcome.httpNotOk ≠
      { score := 0, justification := "credential required" } ∧
    evaluateAnswer ("") FetchOutcome.httpNotOk =
      { score := 0, justification := "API key required for evaluation" } := by
  refine ⟨by decide, by decide⟩

/-- C7, amended: for every invocation of either Evaluator adapter with no
credential configured, the result is score 0 with justification "API key
required for evaluation", independent of the network outcome — the guard
short-circuits before the request is built, so no network call is made. -/
theorem c7_amended (resp : FetchOutcome) (taskId : Nat) :
    evaluateAnswer ("") resp =
      { score := 0, justification := "API key required for evaluation" } ∧
    evaluateTask ("") taskId resp =
      { score := 0, justification := "API key required for evaluation" } := by
  exact ⟨rfl, rfl⟩

/-- C8, counterexample: an Evaluator response carrying score 999 is passed
through unclamped by both adapters, so the returned score is not an integer
in the range 0 to 10. -/
theorem c8_counterexample :
    evaluateAnswer ("k")
        (FetchOutcome.envelopeText ("\x7b\"score\": 999, \"justification\": \"wow\"\x7d")) =
      { score := 999, justification := "wow" } ∧
    ¬((evaluateAnswer ("k")
        (FetchOutcome.envelopeText ("\x7b\"score\": 999, \"justification\": \"wow\"\x7d"))).score ≤ 10) ∧
    evaluateTask ("k") 1
        (FetchOutcome.envelopeText ("\x7b\"score\": 999, \"justification\": \"wow\"\x7d")) =
      { score := 999, justification := "wow" } := by
  refine ⟨by decide, by decide, by decide⟩

/-- C8, amended: whatever integer score the external service's parsed
response carries is returned unchanged by both adapters (JavaScript's
`parsed.score || 0` only replaces a missing or zero field by 0); no
clamping or validation to the documented 0..10 range occurs, so the result
is in range only when the service's value is. -/
theorem c8_amended (key t : String) (v : JsVal) (n : Int) (hkey : key ≠ "")
    (hp : jsParse t = some v) (hs : getField v ("score") = some (JsVal.jnum n)) :
    (evaluateAnswer key (FetchOutcome.envelopeText t)).score = n ∧
    (jsParse (stripCodeFences t) = some v →
      (evaluateTask key 1 (FetchOutcome.envelopeText t)).score = n) := by
  have hscore : jsOrScore v = n := by
    unfold jsOrScore
    rw [hs]
    by_cases h0 : n = 0
    · simp [h0]
    · simp [h0]
  constructor
  · rw [evaluateAnswer_envelope key t hkey, hp]
    simpa using hscore
  · intro hps
    rw [evaluateTask_envelope key t hkey, hps]
    simpa using hscore

/-- C8, witness: the amended theorem applied at the concrete score-999
response (stripping is the identity on it, so the task-side hypothesis
holds by computation). -/
theorem c8_witness :
    (evaluateAnswer ("k")
        (FetchOutcome.envelopeText ("\x7b\"score\": 999, \"justification\": \"wow\"\x7d"))).score = 999 ∧
    (evaluateTask ("k") 1
        (FetchOutcome.envelopeText ("\x7b\"score\": 999, \"justification\": \"wow\"\x7d"))).score = 999 := by
  have h := c8_amended ("k") ("\x7b\"score\": 999, \"justification\": \"wow\"\x7d")
    (JsVal.jobj [("score", JsVal.jnum 999), ("justification", JsVal.jstr ("wow"))]) 999
    (by decide) (by rfl) (by rfl)
  exact ⟨h.1, h.2 (by rfl)⟩

/-- C3, counterexample: a response that was received but was not in the
expected envelope shape (the `candidates[0].content.parts[0].text` access
throws) yields the score-0 "Error occurred during evaluation" fallback, not
the score-5 fallback the claim assigns to every received-but-malformed
response. -/
theorem c3_counterexample :
    evaluateAnswer ("k") FetchOutcome.badEnvelope =
      { score := 0, justification := "Error occurred during evaluation" } ∧
    (evaluateAnswer ("k") FetchOutcome.badEnvelope).score ≠ 5 ∧
    evaluateTask ("k") 1 FetchOutcome.badEnvelope =
      { score := 0, justification := "Error occurred during evaluation" } ∧
    (evaluateTask ("k") 1 FetchOutcome.badEnvelope).score ≠ 5 := by
  refine ⟨by decide, by decide, by decide, by decide⟩

/-- C3, amended: when an evaluation fails the controller never halts: a
transport failure, a non-success status, or a response whose envelope lacks
the expected text path all yield the score-0 "Error occurred during
evaluation" fallback record; a well-formed envelope whose inner text fails
to parse as JSON yields the score-5 "could not be properly evaluated"
fallback; and resolving any in-flight evaluation — whatever its outcome —
appends exactly one record and either advances the item index or
transitions the stage to report. -/
theorem c3_amended (key tinner : String) (resp : FetchOutcome) (hkey : key ≠ "") :
    ((resp = FetchOutcome.networkError ∨ resp = FetchOutcome.httpNotOk ∨
        resp = FetchOutcome.badEnvelope) →
      evaluateAnswer key resp =
        { score := 0, justification := "Error occurred during evaluation" } ∧
      evaluateTask key 1 resp =
        { score := 0, justification := "Error occurred during evaluation" }) ∧
    (jsParse tinner = none →
      evaluateAnswer key (FetchOutcome.envelopeText tinner) =
        { score := 5, justification := "Answer received but could not be properly evaluated" }) ∧
    (jsParse (stripCodeFences tinner) = none →
      evaluateTask key 1 (FetchOutcome.envelopeText tinner) =
        { score := 5, justification := "Task received but could not be properly evaluated" }) ∧
    (∀ (tm i : Nat) (r : FetchOutcome) (s : QState) (p : QPending),
      s.pendingEvals.get? i = some p →
      (stepQ tm (QEvent.resolveEval i r) s).answers.length = s.answers.length + 1 ∧
      ((stepQ tm (QEvent.resolveEval i r) s).currentQuestionIndex = s.currentQuestionIndex + 1 ∨
        (stepQ tm (QEvent.resolveEval i r) s).interviewStage = QStage.report)) ∧
    (∀ (tm i : Nat) (r : FetchOutcome) (s : TState) (p : TPending),
      s.pendingEvals.get? i = some p → p.taskIndex < EXCEL_TASKS.length →
      (stepT tm (TEvent.resolveEval i r) s).taskResults.length = s.taskResults.length + 1 ∧
      ((stepT tm (TEvent.resolveEval i r) s).currentTaskIndex = s.currentTaskIndex + 1 ∨
        (stepT tm (TEvent.resolveEval i r) s).assessmentStage = TStage.report)) := by
  refine ⟨?_, ?_, ?_, ?_, ?_⟩
  · rintro (rfl | rfl | rfl) <;>
      exact ⟨by unfold evaluateAnswer; rw [if_neg hkey],
        by unfold evaluateTask; rw [if_neg hkey]; rfl⟩
  · intro h
    rw [evaluateAnswer_envelope key tinner hkey, h]
  · intro h
    rw [evaluateTask_envelope key tinner hkey, h]
  · intro tm i r s p hp
    simp only [stepQ, hp]
    unfold finishSubmitAnswer
    split
    · constructor
      · simp
      · left
        rfl
    · constructor
      · simp
      · right
        rfl
  · intro tm i r s p hp hidx
    obtain ⟨task, htask⟩ : ∃ task, EXCEL_TASKS.get? p.taskIndex = some task :=
      ⟨_, List.get?_eq_get (by simpa using hidx)⟩
    simp only [List.get?_eq_getElem?] at hp htask
    by_cases hlt : p.taskIndex < EXCEL_TASKS.length - 1
    · cases hnt : EXCEL_TASKS[p.taskIndex + 1]? with
      | none => simp [stepT, hp, finishTaskComplete, htask, hlt, hnt]
      | some nt => simp [stepT, hp, finishTaskComplete, htask, hlt, hnt]
    · simp [stepT, hp, finishTaskComplete, htask, hlt]

/-- C3, witness: the amended theorem applied at the credential "k", the
unparsable inner text "hello", the malformed-envelope outcome, and a
question-session state with one in-flight evaluation. -/
theorem c3_witness :
    evaluateAnswer ("k") FetchOutcome.badEnvelope =
      { score := 0, justification := "Error occurred during evaluation" } ∧
    evaluateAnswer ("k") (FetchOutcome.envelopeText ("hello")) =
      { score := 5, justification := "Answer received but could not be properly evaluated" } ∧
    evaluateTask ("k") 1 (FetchOutcome.envelopeText ("hello")) =
      { score := 5, justification := "Task received but could not be properly evaluated" } ∧
    (stepQ 5 (QEvent.resolveEval 0 FetchOutcome.httpNotOk)
        { initQ with pendingEvals := [({ qIndex := 0, answerText := "a" } : QPending)] }).answers.length =
      ({ initQ with pendingEvals := [({ qIndex := 0, answerText := "a" } : QPending)] } : QState).answers.length + 1 := by
  have h := c3_amended ("k") ("hello") FetchOutcome.badEnvelope (by decide)
  refine ⟨(h.1 (Or.inr (Or.inr rfl))).1, h.2.1 (by rfl), h.2.2.1 (by rfl), ?_⟩
  exact (h.2.2.2.1 5 0 FetchOutcome.httpNotOk
    { initQ with pendingEvals := [({ qIndex := 0, answerText := "a" } : QPending)] }
    { qIndex := 0, answerText := "a" } (by rfl)).1

/-- C4: for a non-empty answer list the reported overall score is the
integer nearest the arithmetic mean of the per-item scores with halves
rounding up — it is the unique integer `r` with
`mean - 1/2 < r ≤ mean + 1/2`, stated below as
`r ≤ mean + 1/2 < r + 1` — and for an empty list it is 0; the task
session's report computes the same rounding over its task results. -/
theorem c4_overall_score (answers : List Answer) (results : List TaskResult) :
    (answers.length = 0 → calculateOverallScore answers = 0) ∧
    (answers.length ≠ 0 →
      (calculateOverallScore answers : ℚ) ≤
          (sumScores answers : ℚ) / (answers.length : ℚ) + 1 / 2 ∧
        (sumScores answers : ℚ) / (answers.length : ℚ) + 1 / 2 <
          (calculateOverallScore answers : ℚ) + 1) ∧
    (results.length = 0 → taskOverallScore results = 0) ∧
    (results.length ≠ 0 →
      (taskOverallScore results : ℚ) ≤
          (sumTaskScores results : ℚ) / (results.length : ℚ) + 1 / 2 ∧
        (sumTaskScores results : ℚ) / (results.length : ℚ) + 1 / 2 <
          (taskOverallScore results : ℚ) + 1) := by
  refine ⟨?_, ?_, ?_, ?_⟩
  · intro h
    simp [calculateOverallScore, h]
  · intro h
    rw [calculateOverallScore, if_neg h]
    constructor
    · simpa [mathRound] using Int.floor_le ((sumScores answers : ℚ) / (answers.length : ℚ) + 1 / 2)
    · simpa [mathRound] using
        Int.lt_floor_add_one ((sumScores answers : ℚ) / (answers.length : ℚ) + 1 / 2)
  · intro h
    simp [taskOverallScore, h]
  · intro h
    rw [taskOverallScore, if_pos (Nat.pos_of_ne_zero h)]
    constructor
    · simpa [mathRound] using
        Int.floor_le ((sumTaskScores results : ℚ) / (results.length : ℚ) + 1 / 2)
    · simpa [mathRound] using
        Int.lt_floor_add_one ((sumTaskScores results : ℚ) / (results.length : ℚ) + 1 / 2)

/-- C4, witness: at two answers scored 7 and 8 the mean is 7.5 and the
theorem's bracket pins the reported score, which computes to 8; the empty
list reports 0. -/
theorem c4_witness :
    calculateOverallScore
        [({ question := "q1", answer := "a1", score := 7, justification := "j" } : Answer),
         ({ question := "q2", answer := "a2", score := 8, justification := "j" } : Answer)] = 8 ∧
    ((8 : ℚ) ≤ (15 : ℚ) / 2 + 1 / 2 ∧ (15 : ℚ) / 2 + 1 / 2 < (8 : ℚ) + 1) ∧
    calculateOverallScore [] = 0 := by
  have h8 : calculateOverallScore
      [({ question := "q1", answer := "a1", score := 7, justification := "j" } : Answer),
       ({ question := "q2", answer := "a2", score := 8, justification := "j" } : Answer)] = 8 := by
    norm_num [calculateOverallScore, sumScores, mathRound, List.foldl]
  have h := c4_overall_score
    [({ question := "q1", answer := "a1", score := 7, justification := "j" } : Answer),
     ({ question := "q2", answer := "a2", score := 8, justification := "j" } : Answer)] []
  have hb := h.2.1 (by decide)
  rw [h8] at hb
  have hmean : (sumScores
      [({ question := "q1", answer := "a1", score := 7, justification := "j" } : Answer),
       ({ question := "q2", answer := "a2", score := 8, justification := "j" } : Answer)] : ℚ) /
      (([({ question := "q1", answer := "a1", score := 7, justification := "j" } : Answer),
         ({ question := "q2", answer := "a2", score := 8, justification := "j" } : Answer)] : List Answer).length : ℚ) =
      (15 : ℚ) / 2 := by
    norm_num [sumScores, List.foldl]
  rw [hmean] at hb
  exact ⟨h8, hb, (c4_overall_score [] []).1 rfl⟩

/-- C6: in both sessions, a paste event or a visibility-hidden event firing
while the stage is active appends exactly one integrity flag of the
corresponding kind to the flag list; neither fires a flag in the welcome or
report stage (the question session's paste surface is its answer textarea,
which exists only on the interview screen and rejects input while disabled
during an in-flight evaluation); and no event of either session ever
removes flags, and no other event appends one — every step either leaves
the flag list unchanged or, for a paste or visibility-hidden event in the
active stage, extends it by exactly one flag. -/
theorem c6_flags (t : Nat) (qs : QState) (ts : TState) :
    (qs.interviewStage = QStage.interview → qs.isLoading = false →
      stepQ t QEvent.pasteEvent qs =
        { qs with cheatingFlags :=
            qs.cheatingFlags ++ [({ type := FlagKind.paste, timestamp := t } : CheatingFlag)] }) ∧
    (qs.interviewStage = QStage.interview →
      stepQ t QEvent.visibilityHidden qs =
        { qs with cheatingFlags :=
            qs.cheatingFlags ++ [({ type := FlagKind.tab_switch, timestamp := t } : CheatingFlag)] }) ∧
    (qs.interviewStage ≠ QStage.interview →
      stepQ t QEvent.pasteEvent qs = qs ∧ stepQ t QEvent.visibilityHidden qs = qs) ∧
    (∀ e : QEvent, (stepQ t e qs).cheatingFlags = qs.cheatingFlags ∨
      ((e = QEvent.pasteEvent ∨ e = QEvent.visibilityHidden) ∧
        qs.interviewStage = QStage.interview ∧
        ∃ f, (stepQ t e qs).cheatingFlags = qs.cheatingFlags ++ [f])) ∧
    (ts.assessmentStage = TStage.tasks →
      stepT t TEvent.pasteEvent ts =
        { ts with cheatingFlags :=
            ts.cheatingFlags ++ [({ type := FlagKind.paste, timestamp := t } : CheatingFlag)] } ∧
      stepT t TEvent.visibilityHidden ts =
        { ts with cheatingFlags :=
            ts.cheatingFlags ++ [({ type := FlagKind.tab_switch, timestamp := t } : CheatingFlag)] }) ∧
    (ts.assessmentStage ≠ TStage.tasks →
      stepT t TEvent.pasteEvent ts = ts ∧ stepT t TEvent.visibilityHidden ts = ts) ∧
    (∀ e : TEvent, (stepT t e ts).cheatingFlags = ts.cheatingFlags ∨
      ((e = TEvent.pasteEvent ∨ e = TEvent.visibilityHidden) ∧
        ts.assessmentStage = TStage.tasks ∧
        ∃ f, (stepT t e ts).cheatingFlags = ts.cheatingFlags ++ [f])) := by
  refine ⟨?_, ?_, ?_, ?_, ?_, ?_, ?_⟩
  · intro h1 h2
    simp [stepQ, h1, h2]
  · intro h1
    simp [stepQ, h1]
  · intro h1
    constructor <;> simp [stepQ, h1]
  · intro e
    cases e with
    | typeApiKey v => left; simp [stepQ]; split <;> simp
    | startClick =>
      left
      simp only [stepQ]
      split
      · split <;> simp
      · simp
    | typeAnswer v => left; simp [stepQ]; split <;> simp
    | submitClick =>
      left
      simp only [stepQ]
      split
      · unfold beginSubmitAnswer
        split <;> simp
      · simp
    | resolveEval i resp =>
      left
      simp only [stepQ, List.get?_eq_getElem?]
      cases hp : qs.pendingEvals[i]? with
      | none => simp [hp]
      | some p =>
        simp only [hp]
        unfold finishSubmitAnswer
        split <;> simp
    | pasteEvent =>
      by_cases h : qs.interviewStage = QStage.interview ∧ qs.isLoading = false
      · exact Or.inr ⟨Or.inl rfl, h.1,
          ({ type := FlagKind.paste, timestamp := t } : CheatingFlag), by simp [stepQ, h]⟩
      · left
        simp [stepQ, h]
    | visibilityHidden =>
      by_cases h : qs.interviewStage = QStage.interview
      · exact Or.inr ⟨Or.inr rfl, h,
          ({ type := FlagKind.tab_switch, timestamp := t } : CheatingFlag), by simp [stepQ, h]⟩
      · left
        simp [stepQ, h]
  · intro h1
    constructor <;> simp [stepT, h1]
  · intro h1
    constructor <;> simp [stepT, h1]
  · intro e
    cases e with
    | typeApiKey v => left; simp [stepT]; split <;> simp
    | startClick =>
      left
      simp only [stepT]
      split
      · split <;> simp
      · simp
    | completeClick =>
      left
      simp only [stepT]
      split
      · unfold beginTaskComplete
        split
        · simp
        · split <;> simp
      · simp
    | timerTick =>
      left
      simp only [stepT]
      split
      · split
        · unfold beginTaskComplete
          split
          · simp
          · split <;> simp
        · simp
      · simp
    | cellEdit r c v => left; simp [stepT]; split <;> simp
    | resolveEval i resp =>
      left
      simp only [stepT, List.get?_eq_getElem?]
      cases hp : ts.pendingEvals[i]? with
      | none => simp [hp]
      | some p =>
        simp only [hp]
        unfold finishTaskComplete
        split
        · simp
        · split
          · split <;> simp
          · simp
    | pasteEvent =>
      by_cases h : ts.assessmentStage = TStage.tasks
      · exact Or.inr ⟨Or.inl rfl, h,
          ({ type := FlagKind.paste, timestamp := t } : CheatingFlag), by simp [stepT, h]⟩
      · left
        simp [stepT, h]
    | visibilityHidden =>
      by_cases h : ts.assessmentStage = TStage.tasks
      · exact Or.inr ⟨Or.inr rfl, h,
          ({ type := FlagKind.tab_switch, timestamp := t } : CheatingFlag), by simp [stepT, h]⟩
      · left
        simp [stepT, h]

/-- C6, witness: the flag theorem applied at concrete freshly-started
sessions — a paste in the active question session and a hidden-visibility
event in the active task session each append exactly their one flag. -/
theorem c6_witness :
    stepQ 7 QEvent.pasteEvent
        (runQ [(0, QEvent.startClick), (1, QEvent.typeApiKey ("k")), (2, QEvent.startClick)]) =
      { runQ [(0, QEvent.startClick), (1, QEvent.typeApiKey ("k")), (2, QEvent.startClick)] with
        cheatingFlags :=
          (runQ [(0, QEvent.startClick), (1, QEvent.typeApiKey ("k")), (2, QEvent.startClick)]).cheatingFlags ++
            [({ type := FlagKind.paste, timestamp := 7 } : CheatingFlag)] } ∧
    stepT 7 TEvent.visibilityHidden
        (runT [(0, TEvent.startClick), (1, TEvent.typeApiKey ("k")), (2, TEvent.startClick)]) =
      { runT [(0, TEvent.startClick), (1, TEvent.typeApiKey ("k")), (2, TEvent.startClick)] with
        cheatingFlags :=
          (runT [(0, TEvent.startClick), (1, TEvent.typeApiKey ("k")), (2, TEvent.startClick)]).cheatingFlags ++
            [({ type := FlagKind.tab_switch, timestamp := 7 } : CheatingFlag)] } := by
  have h := c6_flags 7
    (runQ [(0, QEvent.startClick), (1, QEvent.typeApiKey ("k")), (2, QEvent.startClick)])
    (runT [(0, TEvent.startClick), (1, TEvent.typeApiKey ("k")), (2, TEvent.startClick)])
  exact ⟨h.1 (by rfl) (by rfl), (h.2.2.2.2.1 (by rfl)).2⟩

theorem stepT_taskResults_shape (t : Nat) (e : TEvent) (s : TState) :
    (stepT t e s).taskResults = s.taskResults ∨
    ∃ new : TaskResult,
      (stepT t e s).taskResults = s.taskResults ++ [new] ∧
      (new.completed = true ↔ 6 ≤ new.score) := by
  cases e with
  | typeApiKey v => left; simp only [stepT]; split <;> simp
  | startClick =>
    left
    simp only [stepT]
    split
    · split <;> simp
    · simp
  | completeClick =>
    left
    simp only [stepT]
    split
    · unfold beginTaskComplete
      split
      · simp
      · split <;> simp
    · simp
  | timerTick =>
    left
    simp only [stepT]
    split
    · split
      · unfold beginTaskComplete
        split
        · simp
        · split <;> simp
      · simp
    · simp
  | cellEdit r c v => left; simp only [stepT]; split <;> simp
  | pasteEvent => left; simp only [stepT]; split <;> simp
  | visibilityHidden => left; simp only [stepT]; split <;> simp
  | resolveEval i resp =>
    simp only [stepT, List.get?_eq_getElem?]
    cases hp : s.pendingEvals[i]? with
    | none => left; simp [hp]
    | some p =>
      simp only [hp]
      unfold finishTaskComplete
      split
      · left; simp
      · split
        · split
          · right
            exact ⟨_, rfl, by simp⟩
          · right
            exact ⟨_, rfl, by simp⟩
        · right
          exact ⟨_, rfl, by simp⟩

/-- C9: every `TaskResult` the task session's complete-current-item routine
ever appends — over any event trace — has `completed` true exactly when its
evaluation score is at least 6. -/
theorem c9_completed (tr : List (Nat × TEvent)) (r : TaskResult)
    (hr : r ∈ (runT tr).taskResults) : r.completed = true ↔ 6 ≤ r.score := by
  suffices h : ∀ (tr : List (Nat × TEvent)) (s : TState),
      (∀ r' ∈ s.taskResults, (r'.completed = true ↔ 6 ≤ r'.score)) →
      ∀ r' ∈ (tr.foldl (fun s te => stepT te.1 te.2 s) s).taskResults,
        (r'.completed = true ↔ 6 ≤ r'.score) by
    exact h tr initT (by simp [initT]) r hr
  intro tr
  induction tr with
  | nil =>
    intro s hs
    simpa using hs
  | cons te rest ih =>
    intro s hs
    simp only [List.foldl_cons]
    apply ih
    intro r' hr'
    rcases stepT_taskResults_shape te.1 te.2 s with h | ⟨new, hnew, hiff⟩
    · rw [h] at hr'
      exact hs r' hr'
    · rw [hnew] at hr'
      rcases List.mem_append.mp hr' with h1 | h1
      · exact hs r' h1
      · simp only [List.mem_singleton] at h1
        subst h1
        exact hiff

/-- C9, witness: the theorem applied to the first record of a concrete
single-task run whose evaluation failed with score 0 (`completed` is
false). -/
theorem c9_witness :
    ((runT [(0, TEvent.startClick), (1, TEvent.typeApiKey ("k")), (2, TEvent.startClick),
        (3, TEvent.completeClick),
        (4, TEvent.resolveEval 0 FetchOutcome.httpNotOk)]).taskResults.get ⟨0, by decide⟩).completed = true ↔
      6 ≤ ((runT [(0, TEvent.startClick), (1, TEvent.typeApiKey ("k")), (2, TEvent.startClick),
        (3, TEvent.completeClick),
        (4, TEvent.resolveEval 0 FetchOutcome.httpNotOk)]).taskResults.get ⟨0, by decide⟩).score :=
  c9_completed _ _ (List.get_mem _ _ _)

/-- C10: in the active question session, a submit with a current answer
that is empty or consists only of whitespace is a complete no-op — the
trimmed-answer guard returns before the loading flag is set or an
evaluation is issued, so the state (answers, pending evaluations, item
index, and stage included) is unchanged. -/
theorem c10_blank_submit_noop (t : Nat) (s : QState)
    (hstage : s.interviewStage = QStage.interview)
    (hws : ∀ c ∈ s.currentAnswer.data, isJsWhitespace c = true) :
    stepQ t QEvent.submitClick s = s := by
  have htrim : jsTrim s.currentAnswer = "" := by
    unfold jsTrim
    have h1 : s.currentAnswer.data.dropWhile isJsWhitespace = [] :=
      List.dropWhile_eq_nil_iff.mpr hws
    rw [h1]
    rfl
  simp only [stepQ]
  split
  · unfold beginSubmitAnswer
    rw [if_pos htrim]
  · rfl

/-- C10, witness: the no-op theorem applied to a concrete active session
whose draft answer is two spaces. -/
theorem c10_witness :
    stepQ 9 QEvent.submitClick
        (runQ [(0, QEvent.startClick), (1, QEvent.typeApiKey ("k")), (2, QEvent.startClick),
          (3, QEvent.typeAnswer ("  "))]) =
      runQ [(0, QEvent.startClick), (1, QEvent.typeApiKey ("k")), (2, QEvent.startClick),
        (3, QEvent.typeAnswer ("  "))] :=
  c10_blank_submit_noop 9 _ (by rfl) (by decide)

set_option maxRecDepth 8000 in
/-- C1: evaluating the task session on `overlappingExpiryTrace` shows the
complete-current-item routine running twice for the same item: the explicit
submission path is guarded (the button is disabled while `isLoading`), but
the countdown-expiry path re-invokes `handleTaskComplete` during the
in-flight evaluation, so item 1 (task id 1) receives two `TaskResult`
records and the item index advances twice (to 2), skipping item 2's slot. -/
theorem c1_failing_run :
    (runT overlappingExpiryTrace).taskResults.map (fun r => r.taskId) = [1, 1] ∧
    (runT overlappingExpiryTrace).taskResults.length = 2 ∧
    (runT overlappingExpiryTrace).currentTaskIndex = 2 := by
  refine ⟨by decide, by decide, by decide⟩

set_option maxRecDepth 8000 in
/-- C2: at the end of `overlappingExpiryTrace` the record at position 1
belongs to the item at position 0 (task id 1) instead of the item at
position 1 (task id 2), and the run is left mid-session with the duplicate
record — the record-position/item-position matching the claim asserts for
every reachable state fails on this reachable state. -/
theorem c2_failing_run :
    ((runT overlappingExpiryTrace).taskResults.get? 1).map (fun r => r.taskId) = some 1 ∧
    (EXCEL_TASKS.get? 1).map (fun tk => tk.id) = some 2 ∧
    (runT overlappingExpiryTrace).assessmentStage = TStage.tasks := by
  refine ⟨by decide, by decide, by decide⟩

/-- Taking one more question from the fixed list appends exactly the
question at that index (the `getD` read the session performs). -/
theorem questions_take_snoc (n : Nat) (h : n < EXCEL_QUESTIONS.length) :
    EXCEL_QUESTIONS.take (n + 1) =
      EXCEL_QUESTIONS.take n ++ [EXCEL_QUESTIONS.getD n ("")] := by
  rw [List.take_succ, List.getElem?_eq_getElem h]
  simp [List.getD_eq_getElem?_getD, List.getElem?_eq_getElem h]

/-- `qSessionInv` is preserved by every question-session event: the
submit path is guarded by the disabled-while-loading button and the
trimmed-answer check, and resolving the single in-flight evaluation appends
its record and advances (or finishes) exactly once. -/
theorem qSessionInv_step (t : Nat) (e : QEvent) (s : QState) (h : qSessionInv s) :
    qSessionInv (stepQ t e s) := by
  obtain ⟨hmap, hload, hlen, hidx, hw, hi, hr⟩ := h
  cases e with
  | typeApiKey v =>
    unfold qSessionInv
    simp only [stepQ]
    split
    · exact ⟨hmap, hload, hlen, hidx, hw, hi, hr⟩
    · exact ⟨hmap, hload, hlen, hidx, hw, hi, hr⟩
  | typeAnswer v =>
    unfold qSessionInv
    simp only [stepQ]
    split
    · exact ⟨hmap, hload, hlen, hidx, hw, hi, hr⟩
    · exact ⟨hmap, hload, hlen, hidx, hw, hi, hr⟩
  | pasteEvent =>
    unfold qSessionInv
    simp only [stepQ]
    split
    · exact ⟨hmap, hload, hlen, hidx, hw, hi, hr⟩
    · exact ⟨hmap, hload, hlen, hidx, hw, hi, hr⟩
  | visibilityHidden =>
    unfold qSessionInv
    simp only [stepQ]
    split
    · exact ⟨hmap, hload, hlen, hidx, hw, hi, hr⟩
    · exact ⟨hmap, hload, hlen, hidx, hw, hi, hr⟩
  | startClick =>
    unfold qSessionInv
    simp only [stepQ]
    split
    · rename_i hcond
      obtain ⟨hwelc, -⟩ := hcond
      obtain ⟨hidx0, hans, hpend⟩ := hw hwelc
      split
      · exact ⟨hmap, hload, hlen, hidx, hw, hi, hr⟩
      · refine ⟨hmap, hload, hlen, hidx, ?_, ?_, ?_⟩
        · intro h'
          simp at h'
        · intro _
          refine ⟨?_, ?_⟩
          · simp [hans, hidx0]
          · rw [hidx0]
            decide
        · intro h'
          simp at h'
    · exact ⟨hmap, hload, hlen, hidx, hw, hi, hr⟩
  | submitClick =>
    unfold qSessionInv
    simp only [stepQ]
    split
    · rename_i hcond
      obtain ⟨hstage, hnotload⟩ := hcond
      unfold beginSubmitAnswer
      split
      · exact ⟨hmap, hload, hlen, hidx, hw, hi, hr⟩
      · have hpe : s.pendingEvals = [] := by
          by_contra hne
          have htrue := hload.mpr hne
          rw [hnotload] at htrue
          exact absurd htrue (by decide)
        refine ⟨hmap, by simp [hpe], by simp [hpe], ?_, ?_, ?_, ?_⟩
        · intro p hp
          simp [hpe] at hp
          simp [hp]
        · intro h'
          exact absurd (hstage.symm.trans h') (by decide)
        · intro _
          exact hi hstage
        · intro h'
          exact absurd (hstage.symm.trans h') (by decide)
    · exact ⟨hmap, hload, hlen, hidx, hw, hi, hr⟩
  | resolveEval i resp =>
    unfold qSessionInv
    simp only [stepQ, List.get?_eq_getElem?]
    cases hp : s.pendingEvals[i]? with
    | none => exact ⟨hmap, hload, hlen, hidx, hw, hi, hr⟩
    | some p =>
      simp only [hp]
      have hilt : i < s.pendingEvals.length := (List.getElem?_eq_some.mp hp).1
      have hi0 : i = 0 := by omega
      subst hi0
      have hsingle : s.pendingEvals = [p] := by
        cases hpe : s.pendingEvals with
        | nil =>
          rw [hpe] at hp
          simp at hp
        | cons a rest =>
          rw [hpe] at hp
          simp at hp
          cases rest with
          | nil => simp [hp]
          | cons b r2 =>
            rw [hpe] at hlen
            simp at hlen
      have hstage : s.interviewStage = QStage.interview := by
        cases hst : s.interviewStage with
        | welcome =>
          have := (hw hst).2.2
          rw [hsingle] at this
          simp at this
        | interview => rfl
        | report =>
          have := (hr hst).2
          rw [hsingle] at this
          simp at this
      obtain ⟨hlen_idx, hidx_lt⟩ := hi hstage
      have hpidx : p.qIndex = s.currentQuestionIndex := hidx p (by simp [hsingle])
      have herase : s.pendingEvals.eraseIdx 0 = [] := by simp [hsingle]
      have hqlt : p.qIndex < EXCEL_QUESTIONS.length := by omega
      have hmap2 :
          ((s.answers ++
              [({ question := EXCEL_QUESTIONS.getD p.qIndex ("")
                  answer := p.answerText
                  score := (evaluateAnswer s.apiKey resp).score
                  justification := (evaluateAnswer s.apiKey resp).justification } : Answer)]).map
            (fun a => a.question)) =
          EXCEL_QUESTIONS.take (s.answers.length + 1) := by
        rw [List.map_append, hmap]
        rw [questions_take_snoc s.answers.length (by omega)]
        simp [hpidx, hlen_idx]
      unfold finishSubmitAnswer
      split
      · rename_i hlt
        refine ⟨?_, by simp [herase], by simp [herase], by simp [herase], ?_, ?_, ?_⟩
        · simpa using hmap2
        · intro h'
          exact absurd (hstage.symm.trans h') (by decide)
        · intro _
          refine ⟨?_, ?_⟩
          · show (s.answers ++
                [({ question := EXCEL_QUESTIONS.getD p.qIndex ("")
                    answer := p.answerText
                    score := (evaluateAnswer s.apiKey resp).score
                    justification := (evaluateAnswer s.apiKey resp).justification } : Answer)]).length =
              s.currentQuestionIndex + 1
            simp [hlen_idx]
          · show s.currentQuestionIndex + 1 < EXCEL_QUESTIONS.length
            omega
        · intro h'
          exact absurd (hstage.symm.trans h') (by decide)
      · rename_i hge
        refine ⟨?_, by simp [herase], by simp [herase], by simp [herase], ?_, ?_, ?_⟩
        · simpa using hmap2
        · intro h'
          simp at h'
        · intro h'
          simp at h'
        · intro _
          refine ⟨?_, by simp [herase]⟩
          · show (s.answers ++
                [({ question := EXCEL_QUESTIONS.getD p.qIndex ("")
                    answer := p.answerText
                    score := (evaluateAnswer s.apiKey resp).score
                    justification := (evaluateAnswer s.apiKey resp).justification } : Answer)]).length =
              EXCEL_QUESTIONS.length
            simp
            omega

/-- The question session satisfies `qSessionInv` in every reachable state:
in particular its record count equals the item index while the interview is
active, equals the number of questions at report, and records always carry
the questions in the fixed order.  (The task session satisfies no such
invariant; see the C1/C2 runs on `overlappingExpiryTrace`.) -/
theorem question_session_invariant (tr : List (Nat × QEvent)) : qSessionInv (runQ tr) := by
  suffices h : ∀ (tr' : List (Nat × QEvent)) (s : QState), qSessionInv s →
      qSessionInv (tr'.foldl (fun s' te => stepQ te.1 te.2 s') s) by
    refine h tr initQ ?_
    exact ⟨rfl, by simp [initQ], by simp [initQ], by simp [initQ],
      fun _ => ⟨rfl, rfl, rfl⟩, fun hc => by simp [initQ] at hc, fun hc => by simp [initQ] at hc⟩
  intro tr'
  induction tr' with
  | nil =>
    intro s hs
    simpa using hs
  | cons te rest ih =>
    intro s hs
    simp only [List.foldl_cons]
    exact ih _ (qSessionInv_step te.1 te.2 s hs)

/-- The explicit-submission path of the task session cannot re-enter the
completion routine while an evaluation is in flight: the complete-task
button is disabled while `isLoading`, so the click is a no-op.  (The
countdown-expiry path has no such guard; see `overlappingExpiryTrace`.) -/
theorem completeClick_noop_while_loading (t : Nat) (s : TState)
    (h : s.isLoading = true) : stepT t TEvent.completeClick s = s := by
  simp only [stepT]
  rw [if_neg]
  intro hc
  rw [h] at hc
  exact absurd hc.2 (by decide)
